import Mathlib

/-!
Shallow embedding of the platform abstraction and runtime bootstrap layer:
error-code translation (src/library/std/src/sys/unix/mod.rs and
src/library/std/src/sys/hermit/mod.rs), syscall result conversion,
peer-credential retrieval (src/library/std/src/os/unix/ucred.rs), and the
runtime init sequence.  Raw OS integers are modelled as Int (the source uses
i32 and equality/sign tests only), fallible operations return Except, and
the effectful init sequence is modelled as a pure function from an explicit
environment of syscall outcomes to a trace of events.
-/

namespace SysModel

/-- The portable error-kind enumeration (crate::io::ErrorKind), restricted to
the constructors this layer produces. -/
inductive ErrorKind where
  | PermissionDenied
  | AddrInUse
  | AddrNotAvailable
  | WouldBlock
  | ConnectionAborted
  | ConnectionRefused
  | ConnectionReset
  | AlreadyExists
  | Interrupted
  | InvalidInput
  | NotFound
  | NotConnected
  | BrokenPipe
  | TimedOut
  | Unsupported
  | OutOfMemory
  | Other
  deriving DecidableEq, Repr

/-- The platform errno constants used by the unix decode_error_kind table.
The source refers to libc constants whose numeric values are
target-dependent, so the embedding is parameterised by them. -/
structure ErrnoConsts where
  ECONNREFUSED : Int
  ECONNRESET : Int
  EPERM : Int
  EACCES : Int
  EPIPE : Int
  ENOTCONN : Int
  ECONNABORTED : Int
  EADDRNOTAVAIL : Int
  EADDRINUSE : Int
  ENOENT : Int
  EINTR : Int
  EINVAL : Int
  ETIMEDOUT : Int
  EEXIST : Int
  ENOSYS : Int
  ENOMEM : Int
  EAGAIN : Int
  EWOULDBLOCK : Int

/-- The values the libc constants take on Linux targets. -/
def linuxConsts : ErrnoConsts where
  ECONNREFUSED := 111
  ECONNRESET := 104
  EPERM := 1
  EACCES := 13
  EPIPE := 32
  ENOTCONN := 107
  ECONNABORTED := 103
  EADDRNOTAVAIL := 99
  EADDRINUSE := 98
  ENOENT := 2
  EINTR := 4
  EINVAL := 22
  ETIMEDOUT := 110
  EEXIST := 17
  ENOSYS := 38
  ENOMEM := 12
  EAGAIN := 11
  EWOULDBLOCK := 11

namespace Unix

/-- src/library/std/src/sys/unix/mod.rs, decode_error_kind: first-match
dispatch on the raw errno, in source order; unmatched codes fall through
to Other. -/
def decode_error_kind (c : ErrnoConsts) (errno : Int) : ErrorKind :=
  if errno = c.ECONNREFUSED then .ConnectionRefused
  else if errno = c.ECONNRESET then .ConnectionReset
  else if errno = c.EPERM ∨ errno = c.EACCES then .PermissionDenied
  else if errno = c.EPIPE then .BrokenPipe
  else if errno = c.ENOTCONN then .NotConnected
  else if errno = c.ECONNABORTED then .ConnectionAborted
  else if errno = c.EADDRNOTAVAIL then .AddrNotAvailable
  else if errno = c.EADDRINUSE then .AddrInUse
  else if errno = c.ENOENT then .NotFound
  else if errno = c.EINTR then .Interrupted
  else if errno = c.EINVAL then .InvalidInput
  else if errno = c.ETIMEDOUT then .TimedOut
  else if errno = c.EEXIST then .AlreadyExists
  else if errno = c.ENOSYS then .Unsupported
  else if errno = c.ENOMEM then .OutOfMemory
  else if errno = c.EAGAIN ∨ errno = c.EWOULDBLOCK then .WouldBlock
  else .Other

/-- The set of raw codes appearing in the unix mapping table. -/
def tableCodes (c : ErrnoConsts) : List Int :=
  [c.ECONNREFUSED, c.ECONNRESET, c.EPERM, c.EACCES, c.EPIPE, c.ENOTCONN,
   c.ECONNABORTED, c.EADDRNOTAVAIL, c.EADDRINUSE, c.ENOENT, c.EINTR,
   c.EINVAL, c.ETIMEDOUT, c.EEXIST, c.ENOSYS, c.ENOMEM, c.EAGAIN,
   c.EWOULDBLOCK]

/-- The unix mapping table as documented, one row per source match arm
(the would-block arm contributes two rows). -/
def tableRows (c : ErrnoConsts) : List (Int × ErrorKind) :=
  [(c.ECONNREFUSED, .ConnectionRefused), (c.ECONNRESET, .ConnectionReset),
   (c.EPERM, .PermissionDenied), (c.EACCES, .PermissionDenied),
   (c.EPIPE, .BrokenPipe), (c.ENOTCONN, .NotConnected),
   (c.ECONNABORTED, .ConnectionAborted), (c.EADDRNOTAVAIL, .AddrNotAvailable),
   (c.EADDRINUSE, .AddrInUse), (c.ENOENT, .NotFound),
   (c.EINTR, .Interrupted), (c.EINVAL, .InvalidInput),
   (c.ETIMEDOUT, .TimedOut), (c.EEXIST, .AlreadyExists),
   (c.ENOSYS, .Unsupported), (c.ENOMEM, .OutOfMemory),
   (c.EAGAIN, .WouldBlock), (c.EWOULDBLOCK, .WouldBlock)]

end Unix

namespace Hermit

/-- src/library/std/src/sys/hermit/mod.rs, decode_error_kind: guard-based
dispatch on concrete numeric codes, in source order. -/
def decode_error_kind (errno : Int) : ErrorKind :=
  if errno = 13 then .PermissionDenied
  else if errno = 98 then .AddrInUse
  else if errno = 99 then .AddrNotAvailable
  else if errno = 11 then .WouldBlock
  else if errno = 103 then .ConnectionAborted
  else if errno = 111 then .ConnectionRefused
  else if errno = 104 then .ConnectionReset
  else if errno = 17 then .AlreadyExists
  else if errno = 4 then .Interrupted
  else if errno = 22 then .InvalidInput
  else if errno = 2 then .NotFound
  else if errno = 107 then .NotConnected
  else if errno = 1 then .PermissionDenied
  else if errno = 32 then .BrokenPipe
  else if errno = 110 then .TimedOut
  else .Other

/-- The set of raw codes appearing in the hermit mapping table. -/
def tableCodes : List Int :=
  [13, 98, 99, 11, 103, 111, 104, 17, 4, 22, 2, 107, 1, 32, 110]

/-- The hermit mapping table as documented, one row per source guard. -/
def tableRows : List (Int × ErrorKind) :=
  [(13, .PermissionDenied), (98, .AddrInUse), (99, .AddrNotAvailable),
   (11, .WouldBlock), (103, .ConnectionAborted), (111, .ConnectionRefused),
   (104, .ConnectionReset), (17, .AlreadyExists), (4, .Interrupted),
   (22, .InvalidInput), (2, .NotFound), (107, .NotConnected),
   (1, .PermissionDenied), (32, .BrokenPipe), (110, .TimedOut)]

end Hermit

/-- crate::io::Error, restricted to the two constructors this layer uses:
an error carrying a raw OS code (from_raw_os_error / last_os_error) and a
constant error carrying a kind and a static message (new_const). -/
inductive IoError where
  | os (code : Int)
  | simple (kind : ErrorKind) (msg : String)
  deriving DecidableEq, Repr

/-- Error::from_raw_os_error. -/
def from_raw_os_error (code : Int) : IoError := .os code

/-- Error::last_os_error: reads the thread-local errno value, which the
embedding passes explicitly. -/
def last_os_error (errno : Int) : IoError := .os errno

/-- Error::kind on the unix target: an os-code error decodes through the
platform table; a constant error reports its stored kind. -/
def IoError.kind (c : ErrnoConsts) : IoError → ErrorKind
  | .os code => Unix.decode_error_kind c code
  | .simple k _ => k

namespace Unix

/-- The body of every impl generated by impl_is_minus_one (i8 i16 i32 i64
isize): comparison with the failure sentinel -1. -/
def is_minus_one (t : Int) : Bool := t == -1

/-- src/library/std/src/sys/unix/mod.rs, cvt: sentinel check, and on
failure an error from the current last-error state (passed explicitly). -/
def cvt (last_error : Int) (t : Int) : Except IoError Int :=
  if is_minus_one t then .error (last_os_error last_error) else .ok t

/-- src/library/std/src/sys/unix/mod.rs, cvt_r: repeatedly invoke the
operation, looping only while the error kind is Interrupted.  The nth
invocation of the operation returns f n with last-error state errs n;
the result carries the number of invocations performed.  The source loop
has no bound, so the embedding takes fuel and returns none when the fuel
runs out before a non-Interrupted outcome. -/
def cvt_r (c : ErrnoConsts) (f : Nat → Int) (errs : Nat → Int) :
    Nat → Nat → Option (Except IoError Int × Nat)
  | _, 0 => none
  | n, fuel + 1 =>
    match cvt (errs n) (f n) with
    | .error e =>
      if IoError.kind c e = ErrorKind.Interrupted then
        match cvt_r c f errs (n + 1) fuel with
        | none => none
        | some (r, k) => some (r, k + 1)
      else some (.error e, 1)
    | .ok v => some (.ok v, 1)

/-- src/library/std/src/sys/unix/mod.rs, cvt_nz: a nonzero return carries
the error code directly. -/
def cvt_nz (error : Int) : Except IoError Unit :=
  if error = 0 then .ok () else .error (from_raw_os_error error)

end Unix

namespace Hermit

/-- src/library/std/src/sys/hermit/mod.rs, cvt: any negative return is the
sentinel and carries the negated error code itself; a non-negative return
is the success value cast to usize. -/
def cvt (result : Int) : Except IoError Nat :=
  if result < 0 then .error (from_raw_os_error (-result)) else .ok result.toNat

/-- src/library/std/src/sys/hermit/mod.rs, unsupported_err. -/
def unsupported_err : IoError :=
  .simple .Unsupported "operation not supported on HermitCore yet"

/-- src/library/std/src/sys/hermit/mod.rs, unsupported: constructs the
error immediately; no platform call appears in its body. -/
def unsupported {α : Type} : Except IoError α := .error unsupported_err

end Hermit

/-- src/library/std/src/os/unix/ucred.rs, UCred: peer credentials with an
optional pid. -/
structure UCred where
  uid : Nat
  gid : Nat
  pid : Option Int
  deriving DecidableEq, Repr

/-- Size in bytes of the linux ucred structure (three 32-bit fields). -/
def sizeof_ucred : Nat := 12

/-- Size in bytes of pid_t. -/
def sizeof_pid_t : Nat := 4

/-- Outcomes of the syscalls impl_linux::peer_cred performs: the getsockopt
return value, the credential fields and size it writes back, and the
last-error state observed on failure. -/
structure LinuxPeerEnv where
  getsockopt_ret : Int
  peer_pid : Int
  peer_uid : Nat
  peer_gid : Nat
  size_out : Nat
  last_error : Int

namespace impl_linux

/-- src/library/std/src/os/unix/ucred.rs, impl_linux::peer_cred: one
SO_PEERCRED getsockopt call; success requires a zero return AND a written
size exactly equal to the ucred structure size, else last_os_error. -/
def peer_cred (e : LinuxPeerEnv) : Except IoError UCred :=
  if e.getsockopt_ret = 0 ∧ e.size_out = sizeof_ucred then
    .ok { uid := e.peer_uid, gid := e.peer_gid, pid := some e.peer_pid }
  else
    .error (last_os_error e.last_error)

end impl_linux

/-- Outcomes of the syscalls impl_bsd::peer_cred performs. -/
structure BsdPeerEnv where
  getpeereid_ret : Int
  peer_uid : Nat
  peer_gid : Nat
  last_error : Int

namespace impl_bsd

/-- src/library/std/src/os/unix/ucred.rs, impl_bsd::peer_cred: one
getpeereid call yielding uid and gid; pid is always None. -/
def peer_cred (e : BsdPeerEnv) : Except IoError UCred :=
  if e.getpeereid_ret = 0 then
    .ok { uid := e.peer_uid, gid := e.peer_gid, pid := none }
  else
    .error (last_os_error e.last_error)

end impl_bsd

/-- Outcomes of the syscalls impl_mac::peer_cred performs: first the
getpeereid call, then the LOCAL_PEERPID getsockopt call, each with its own
last-error state. -/
structure MacPeerEnv where
  getpeereid_ret : Int
  peer_uid : Nat
  peer_gid : Nat
  getsockopt_ret : Int
  peer_pid : Int
  pid_size_out : Nat
  last_error_1 : Int
  last_error_2 : Int

namespace impl_mac

/-- src/library/std/src/os/unix/ucred.rs, impl_mac::peer_cred: getpeereid
first (nonzero return is an early error); then the LOCAL_PEERPID
getsockopt call, whose success (zero return and exact pid_t size) yields
Ok with the pid, and whose failure yields last_os_error. -/
def peer_cred (e : MacPeerEnv) : Except IoError UCred :=
  if e.getpeereid_ret ≠ 0 then
    .error (last_os_error e.last_error_1)
  else if e.getsockopt_ret = 0 ∧ e.pid_size_out = sizeof_pid_t then
    .ok { uid := e.peer_uid, gid := e.peer_gid, pid := some e.peer_pid }
  else
    .error (last_os_error e.last_error_2)

end impl_mac

/-- Observable events of the unix init sequence, one per platform call or
bootstrap sub-step: a poll call inside sanitize_standard_fds, a reopen of
an invalid standard descriptor against /dev/null, the reset_sigpipe call,
stack_overflow::init, and args::init. -/
inductive Event where
  | pollCall
  | reopen (fd : Nat)
  | resetSigpipe
  | stackOverflowInit
  | argsInit
  deriving DecidableEq, Repr

/-- Result of running a bootstrap fragment: normal completion with its
event trace, process abort with the trace up to the abort, or fuel
exhaustion of the unbounded EINTR poll retry loop. -/
inductive RunResult where
  | ok (trace : List Event)
  | aborted (trace : List Event)
  | outOfFuel
  deriving DecidableEq, Repr

/-- Outcomes of the platform calls init performs: the return value and
errno of the nth poll call, whether each standard fd has POLLNVAL set
after a successful poll, the return value of the nth open of /dev/null,
and whether the signal call returns SIG_ERR. -/
structure InitEnv where
  pollRet : Nat → Int
  pollErrno : Nat → Int
  pollnval : Nat → Bool
  openRet : Nat → Int
  sigRetErr : Bool

namespace Unix

/-- The poll retry loop of sanitize_standard_fds: while poll returns -1,
retry on EINTR and abort on any other errno.  Returns none on fuel
exhaustion, otherwise whether the loop exited by success (true) or by
abort (false), together with the number of poll calls made. -/
def poll_loop (c : ErrnoConsts) (e : InitEnv) : Nat → Nat → Option (Bool × Nat)
  | _, 0 => none
  | n, fuel + 1 =>
    if e.pollRet n = -1 then
      if e.pollErrno n = c.EINTR then poll_loop c e (n + 1) fuel
      else some (false, n + 1)
    else some (true, n + 1)

/-- The reopen pass of sanitize_standard_fds over the standard fds in
order: an fd whose POLLNVAL bit is set is reopened via open of /dev/null
(the att counter indexes successive open calls); a -1 open return aborts
the process. -/
def reopen_go (e : InitEnv) : List Nat → Nat → List Event → RunResult
  | [], _, acc => .ok acc
  | fd :: rest, att, acc =>
    if e.pollnval fd then
      if e.openRet att = -1 then .aborted (acc ++ [.reopen fd])
      else reopen_go e rest (att + 1) (acc ++ [.reopen fd])
    else reopen_go e rest att acc

/-- Whether some invalid standard fd has its reopen call fail, following
the same fd order and open-call numbering as reopen_go. -/
def reopen_fails (e : InitEnv) : List Nat → Nat → Bool
  | [], _ => false
  | fd :: rest, att =>
    if e.pollnval fd then
      (e.openRet att == -1) || reopen_fails e rest (att + 1)
    else reopen_fails e rest att

/-- src/library/std/src/sys/unix/mod.rs, sanitize_standard_fds: the poll
retry loop over fds 0, 1, 2, then the reopen pass. -/
def sanitize_standard_fds (c : ErrnoConsts) (e : InitEnv) (fuel : Nat) :
    RunResult :=
  match poll_loop c e 0 fuel with
  | none => .outOfFuel
  | some (false, k) => .aborted (List.replicate k .pollCall)
  | some (true, k) => reopen_go e [0, 1, 2] 0 (List.replicate k .pollCall)

/-- src/library/std/src/sys/unix/mod.rs, init: sanitize_standard_fds, then
reset_sigpipe (whose assert on the signal return aborts if SIG_ERR), then
stack_overflow::init, then args::init. -/
def init (c : ErrnoConsts) (e : InitEnv) (fuel : Nat) : RunResult :=
  match sanitize_standard_fds c e fuel with
  | .ok t =>
    if e.sigRetErr then .aborted (t ++ [.resetSigpipe])
    else .ok (t ++ [.resetSigpipe, .stackOverflowInit, .argsInit])
  | r => r

end Unix

/-- Error::kind on the hermit target. -/
def IoError.kindHermit : IoError → ErrorKind
  | .os code => Hermit.decode_error_kind code
  | .simple k _ => k

/-- Concrete Variant C scenario: the base getpeereid call succeeds with
uid 1000 and gid 1000; the secondary LOCAL_PEERPID getsockopt call fails
with return -1 and last error 22. -/
def macEnvPidFail : MacPeerEnv where
  getpeereid_ret := 0
  peer_uid := 1000
  peer_gid := 1000
  getsockopt_ret := -1
  peer_pid := 55
  pid_size_out := 4
  last_error_1 := 0
  last_error_2 := 22

/-- Concrete Variant A scenario: the getsockopt call returns zero but
writes back a size of 11 instead of the 12-byte ucred size. -/
def linuxEnvBadSize : LinuxPeerEnv where
  getsockopt_ret := 0
  peer_pid := 42
  peer_uid := 1000
  peer_gid := 1000
  size_out := 11
  last_error := 22

/-- C1 counterexample: with a successful base call and a failing secondary
pid call, impl_mac.peer_cred returns the last-error value, not the Ok
credential with process_id None that the claim requires. -/
theorem C1_counterexample :
    impl_mac.peer_cred macEnvPidFail = .error (last_os_error 22) ∧
    impl_mac.peer_cred macEnvPidFail ≠
      Except.ok { uid := 1000, gid := 1000, pid := none } := by
  refine ⟨rfl, fun h => ?_⟩
  rw [show impl_mac.peer_cred macEnvPidFail = .error (last_os_error 22)
    from rfl] at h
  exact Except.noConfusion h

/-- C1 (amended): in Variant C a nonzero base getpeereid return yields the
first last-error value; with a zero base return, the overall result is Ok
with process_id Some only when the secondary pid getsockopt call returns
zero with an exactly matching size, and is the second last-error value in
every other case — a failing secondary call downgrades the result to
failure. -/
theorem C1_impl_mac_peer_cred (e : MacPeerEnv) :
    (e.getpeereid_ret ≠ 0 →
      impl_mac.peer_cred e = .error (last_os_error e.last_error_1)) ∧
    (e.getpeereid_ret = 0 →
      e.getsockopt_ret = 0 ∧ e.pid_size_out = sizeof_pid_t →
      impl_mac.peer_cred e =
        .ok { uid := e.peer_uid, gid := e.peer_gid, pid := some e.peer_pid }) ∧
    (e.getpeereid_ret = 0 →
      ¬ (e.getsockopt_ret = 0 ∧ e.pid_size_out = sizeof_pid_t) →
      impl_mac.peer_cred e = .error (last_os_error e.last_error_2)) := by
  refine ⟨fun h => ?_, fun h1 h2 => ?_, fun h1 h2 => ?_⟩
  · simp [impl_mac.peer_cred, h]
  · simp [impl_mac.peer_cred, h1, h2]
  · simp [impl_mac.peer_cred, h1, h2]

/-- C1 witness: the amended theorem applied to the concrete failing
secondary-call scenario. -/
theorem C1_witness :
    impl_mac.peer_cred macEnvPidFail = .error (last_os_error 22) :=
  (C1_impl_mac_peer_cred macEnvPidFail).2.2 rfl (by decide)

/-- C2: decode_error_kind is total and table-driven: on both platforms any
code outside the mapping table decodes to Other (on unix for every choice
of platform constants), and on the Linux instantiation of the unix table
and on the hermit table every listed code decodes to its documented
kind. -/
theorem C2_decode_error_kind_table (c : ErrnoConsts) :
    (∀ x : Int, x ∉ Unix.tableCodes c →
      Unix.decode_error_kind c x = ErrorKind.Other) ∧
    (∀ x : Int, x ∉ Hermit.tableCodes →
      Hermit.decode_error_kind x = ErrorKind.Other) ∧
    (∀ p ∈ Unix.tableRows linuxConsts,
      Unix.decode_error_kind linuxConsts p.1 = p.2) ∧
    (∀ p ∈ Hermit.tableRows, Hermit.decode_error_kind p.1 = p.2) := by
  refine ⟨?_, ?_, by decide, by decide⟩
  · intro x hx
    simp only [Unix.tableCodes, List.mem_cons, List.not_mem_nil, or_false,
      not_or] at hx
    obtain ⟨h1, h2, h3, h4, h5, h6, h7, h8, h9, h10, h11, h12, h13, h14,
      h15, h16, h17, h18⟩ := hx
    simp [Unix.decode_error_kind, h1, h2, h3, h4, h5, h6, h7, h8, h9, h10,
      h11, h12, h13, h14, h15, h16, h17, h18]
  · intro x hx
    simp only [Hermit.tableCodes, List.mem_cons, List.not_mem_nil, or_false,
      not_or] at hx
    obtain ⟨h1, h2, h3, h4, h5, h6, h7, h8, h9, h10, h11, h12, h13, h14,
      h15⟩ := hx
    simp [Hermit.decode_error_kind, h1, h2, h3, h4, h5, h6, h7, h8, h9,
      h10, h11, h12, h13, h14, h15]

/-- C2 witness: the unmapped code 500 decodes to Other on both
platforms. -/
theorem C2_witness :
    Unix.decode_error_kind linuxConsts 500 = ErrorKind.Other ∧
    Hermit.decode_error_kind 500 = ErrorKind.Other :=
  ⟨(C2_decode_error_kind_table linuxConsts).1 500 (by decide),
   (C2_decode_error_kind_table linuxConsts).2.1 500 (by decide)⟩

/-- C3: any code equal to EAGAIN or to EWOULDBLOCK decodes to WouldBlock,
for any platform constants in which that code does not collide with one of
the earlier match arms — in particular whether or not EAGAIN and
EWOULDBLOCK share a numeric value. -/
theorem C3_would_block (c : ErrnoConsts) (x : Int)
    (hwb : x = c.EAGAIN ∨ x = c.EWOULDBLOCK)
    (hdist : x ∉ [c.ECONNREFUSED, c.ECONNRESET, c.EPERM, c.EACCES, c.EPIPE,
      c.ENOTCONN, c.ECONNABORTED, c.EADDRNOTAVAIL, c.EADDRINUSE, c.ENOENT,
      c.EINTR, c.EINVAL, c.ETIMEDOUT, c.EEXIST, c.ENOSYS, c.ENOMEM]) :
    Unix.decode_error_kind c x = ErrorKind.WouldBlock := by
  simp only [List.mem_cons, List.not_mem_nil, or_false, not_or] at hdist
  obtain ⟨h1, h2, h3, h4, h5, h6, h7, h8, h9, h10, h11, h12, h13, h14,
    h15, h16⟩ := hdist
  simp [Unix.decode_error_kind, h1, h2, h3, h4, h5, h6, h7, h8, h9, h10,
    h11, h12, h13, h14, h15, h16, hwb]

/-- C3 witness: on Linux, where EAGAIN and EWOULDBLOCK are both 11, the
code 11 decodes to WouldBlock. -/
theorem C3_witness :
    Unix.decode_error_kind linuxConsts 11 = ErrorKind.WouldBlock :=
  C3_would_block linuxConsts 11 (Or.inl rfl) (by decide)

/-- C4: cvt returns the value unchanged when it is not the -1 sentinel,
and an error built from the current last-error state when it is. -/
theorem C4_cvt (last_error t : Int) :
    (t ≠ -1 → Unix.cvt last_error t = .ok t) ∧
    (t = -1 → Unix.cvt last_error t = .error (last_os_error last_error)) := by
  constructor
  · intro h
    simp [Unix.cvt, Unix.is_minus_one, h]
  · rintro rfl
    simp [Unix.cvt, Unix.is_minus_one]

/-- C4 witness: cvt at the non-sentinel 7 and at the sentinel -1, with
last-error state 9. -/
theorem C4_witness :
    Unix.cvt 9 7 = .ok 7 ∧
    Unix.cvt 9 (-1) = .error (last_os_error 9) :=
  ⟨(C4_cvt 9 7).1 (by decide), (C4_cvt 9 (-1)).2 rfl⟩

/-- C6: impl_linux.peer_cred succeeds exactly when the getsockopt call
returns zero and the written size equals the ucred structure size, with
process_id populated; in every other case, including a zero return with a
mismatched size, it returns the last-error value. -/
theorem C6_impl_linux_peer_cred (e : LinuxPeerEnv) :
    (e.getsockopt_ret = 0 ∧ e.size_out = sizeof_ucred →
      impl_linux.peer_cred e =
        .ok { uid := e.peer_uid, gid := e.peer_gid, pid := some e.peer_pid }) ∧
    (¬ (e.getsockopt_ret = 0 ∧ e.size_out = sizeof_ucred) →
      impl_linux.peer_cred e = .error (last_os_error e.last_error)) := by
  constructor
  · intro h
    simp [impl_linux.peer_cred, h]
  · intro h
    simp [impl_linux.peer_cred, h]

/-- C6 witness: a zero getsockopt return with a written size of 11 instead
of 12 yields an error. -/
theorem C6_witness :
    impl_linux.peer_cred linuxEnvBadSize = .error (last_os_error 22) :=
  (C6_impl_linux_peer_cred linuxEnvBadSize).2 (by decide)

/-- C9 counterexample: the stub error message in the code is not the
message the claim states. -/
theorem C9_counterexample :
    Hermit.unsupported_err ≠
      IoError.simple ErrorKind.Unsupported
        "operation not supported on this platform yet" := by
  decide

/-- C9 (amended): every operation on the unsupported stub backend returns,
with no platform call in its body, the constant error of kind Unsupported
whose message is "operation not supported on HermitCore yet". -/
theorem C9_unsupported (α : Type) :
    Hermit.unsupported (α := α) = Except.error Hermit.unsupported_err ∧
    IoError.kindHermit Hermit.unsupported_err = ErrorKind.Unsupported ∧
    Hermit.unsupported_err =
      IoError.simple ErrorKind.Unsupported
        "operation not supported on HermitCore yet" :=
  ⟨rfl, rfl, rfl⟩

/-- C10: the hermit cvt treats any negative return as the sentinel and
builds the error directly from the negated return value, with no
last-error lookup; a non-negative return is Ok of the value cast to
usize. -/
theorem C10_hermit_cvt (result : Int) :
    (result < 0 →
      Hermit.cvt result = .error (from_raw_os_error (-result))) ∧
    (0 ≤ result → Hermit.cvt result = .ok result.toNat) := by
  constructor
  · intro h
    simp [Hermit.cvt, h]
  · intro h
    simp [Hermit.cvt, not_lt.mpr h]

/-- An operation whose first two invocations fail with the -1 sentinel and
whose third returns 7. -/
def eintr_twice_vals : Nat → Int := fun n => if n < 2 then -1 else 7

/-- Last-error state that always reads EINTR (4 on Linux). -/
def eintr_twice_errs : Nat → Int := fun _ => 4

/-- C5: cvt_r returns any success and any non-Interrupted error after a
single invocation, re-invokes the operation (counting one more call)
exactly when the error kind is Interrupted, and on the operation that is
interrupted twice and then succeeds it returns the success value with
exactly three invocations. -/
theorem C5_cvt_r (c : ErrnoConsts) :
    (∀ (f errs : Nat → Int) (n fuel : Nat) (v : Int),
      Unix.cvt (errs n) (f n) = .ok v →
      Unix.cvt_r c f errs n (fuel + 1) = some (.ok v, 1)) ∧
    (∀ (f errs : Nat → Int) (n fuel : Nat) (e : IoError),
      Unix.cvt (errs n) (f n) = .error e →
      IoError.kind c e ≠ ErrorKind.Interrupted →
      Unix.cvt_r c f errs n (fuel + 1) = some (.error e, 1)) ∧
    (∀ (f errs : Nat → Int) (n fuel : Nat) (e : IoError),
      Unix.cvt (errs n) (f n) = .error e →
      IoError.kind c e = ErrorKind.Interrupted →
      Unix.cvt_r c f errs n (fuel + 1) =
        (Unix.cvt_r c f errs (n + 1) fuel).map (fun p => (p.1, p.2 + 1))) ∧
    Unix.cvt_r linuxConsts eintr_twice_vals eintr_twice_errs 0 3 =
      some (.ok 7, 3) := by
  refine ⟨?_, ?_, ?_, rfl⟩
  · intro f errs n fuel v h
    simp [Unix.cvt_r, h]
  · intro f errs n fuel e h hk
    simp [Unix.cvt_r, h, hk]
  · intro f errs n fuel e h hk
    cases hx : Unix.cvt_r c f errs (n + 1) fuel with
    | none => simp [Unix.cvt_r, h, hk, hx]
    | some p => simp [Unix.cvt_r, h, hk, hx]

/-- C5 witness: the theorem applied concretely — the interrupted-twice
operation succeeds with value 7 after exactly three invocations, and an
immediately succeeding operation returns after one. -/
theorem C5_witness :
    Unix.cvt_r linuxConsts (fun _ => 5) (fun _ => 0) 0 (2 + 1) =
      some (.ok 5, 1) :=
  (C5_cvt_r linuxConsts).1 (fun _ => 5) (fun _ => 0) 0 2 5 rfl

/-- C10 witness: the hermit cvt at the negative return -38 and at the
non-negative return 5. -/
theorem C10_witness :
    Hermit.cvt (-38) = .error (from_raw_os_error 38) ∧
    Hermit.cvt 5 = .ok 5 :=
  ⟨(C10_hermit_cvt (-38)).1 (by decide), (C10_hermit_cvt 5).2 (by decide)⟩

/-- When the reopen pass completes normally, its trace is the accumulator
followed by reopen events only. -/
theorem reopen_go_ok_shape (e : InitEnv) :
    ∀ (fds : List Nat) (att : Nat) (acc t : List Event),
      Unix.reopen_go e fds att acc = .ok t →
      ∃ r, t = acc ++ r ∧ ∀ ev ∈ r, ∃ fd, ev = Event.reopen fd := by
  intro fds
  induction fds with
  | nil =>
    intro att acc t h
    simp only [Unix.reopen_go, RunResult.ok.injEq] at h
    exact ⟨[], by simp [h], by simp⟩
  | cons fd rest ih =>
    intro att acc t h
    simp only [Unix.reopen_go] at h
    by_cases hv : e.pollnval fd
    · rw [if_pos hv] at h
      by_cases ho : e.openRet att = -1
      · rw [if_pos ho] at h
        exact absurd h (by simp)
      · rw [if_neg ho] at h
        obtain ⟨r, hr, hmem⟩ := ih (att + 1) (acc ++ [.reopen fd]) t h
        refine ⟨Event.reopen fd :: r, by simp [hr], ?_⟩
        intro ev hev
        rcases List.mem_cons.mp hev with h1 | h1
        · exact ⟨fd, h1⟩
        · exact hmem ev h1
    · rw [if_neg hv] at h
      exact ih att acc t h

/-- When the reopen pass completes normally, the trace contains the
accumulator and a reopen event for every invalid fd in the list. -/
theorem reopen_go_ok_mem (e : InitEnv) :
    ∀ (fds : List Nat) (att : Nat) (acc t : List Event),
      Unix.reopen_go e fds att acc = .ok t →
      (∀ ev ∈ acc, ev ∈ t) ∧
      (∀ fd ∈ fds, e.pollnval fd = true → Event.reopen fd ∈ t) := by
  intro fds
  induction fds with
  | nil =>
    intro att acc t h
    simp only [Unix.reopen_go, RunResult.ok.injEq] at h
    subst h
    exact ⟨fun ev hev => hev, by simp⟩
  | cons fd rest ih =>
    intro att acc t h
    simp only [Unix.reopen_go] at h
    by_cases hv : e.pollnval fd
    · rw [if_pos hv] at h
      by_cases ho : e.openRet att = -1
      · rw [if_pos ho] at h
        exact absurd h (by simp)
      · rw [if_neg ho] at h
        obtain ⟨hacc, hrest⟩ := ih (att + 1) (acc ++ [.reopen fd]) t h
        refine ⟨fun ev hev => hacc ev (by simp [hev]), ?_⟩
        intro g hg hvg
        rcases List.mem_cons.mp hg with h1 | h1
        · exact h1 ▸ hacc (Event.reopen fd) (by simp)
        · exact hrest g h1 hvg
    · rw [if_neg hv] at h
      obtain ⟨hacc, hrest⟩ := ih att acc t h
      refine ⟨hacc, ?_⟩
      intro g hg hvg
      rcases List.mem_cons.mp hg with h1 | h1
      · exact absurd hvg (by rw [h1]; simp [hv])
      · exact hrest g h1 hvg

/-- When some invalid fd has a failing reopen call, the reopen pass aborts
and its trace holds only accumulator entries and reopen events. -/
theorem reopen_go_fails_aborted (e : InitEnv) :
    ∀ (fds : List Nat) (att : Nat) (acc : List Event),
      Unix.reopen_fails e fds att = true →
      ∃ t, Unix.reopen_go e fds att acc = .aborted t ∧
        ∀ ev ∈ t, ev ∈ acc ∨ ∃ fd, ev = Event.reopen fd := by
  intro fds
  induction fds with
  | nil =>
    intro att acc h
    exact absurd h (by simp [Unix.reopen_fails])
  | cons fd rest ih =>
    intro att acc h
    simp only [Unix.reopen_fails] at h
    simp only [Unix.reopen_go]
    by_cases hv : e.pollnval fd
    · rw [if_pos hv] at h ⊢
      by_cases ho : e.openRet att = -1
      · rw [if_pos ho]
        refine ⟨acc ++ [.reopen fd], rfl, ?_⟩
        intro ev hev
        rcases List.mem_append.mp hev with h1 | h1
        · exact Or.inl h1
        · exact Or.inr ⟨fd, by simpa using h1⟩
      · rw [if_neg ho]
        have h2 : Unix.reopen_fails e rest (att + 1) = true := by
          rcases Bool.or_eq_true_iff.mp h with h1 | h1
          · exact absurd (by simpa using h1) ho
          · exact h1
        obtain ⟨t, ht, hmem⟩ := ih (att + 1) (acc ++ [.reopen fd]) h2
        refine ⟨t, ht, ?_⟩
        intro ev hev
        rcases hmem ev hev with h1 | h1
        · rcases List.mem_append.mp h1 with h3 | h3
          · exact Or.inl h3
          · exact Or.inr ⟨fd, by simpa using h3⟩
        · exact Or.inr h1
    · rw [if_neg hv] at h ⊢
      exact ih att acc h

/-- C7: whenever init completes normally, its trace is exactly the
sanitization events (the poll calls, then the reopens) followed by the
reset_sigpipe, stack_overflow::init and args::init steps, in that fixed
order — no step runs before an earlier-numbered step. -/
theorem C7_init_order (c : ErrnoConsts) (e : InitEnv) (fuel : Nat)
    (t : List Event) (h : Unix.init c e fuel = .ok t) :
    ∃ k r, t = List.replicate k Event.pollCall ++ r ++
        [Event.resetSigpipe, Event.stackOverflowInit, Event.argsInit] ∧
      ∀ ev ∈ r, ∃ fd, ev = Event.reopen fd := by
  unfold Unix.init at h
  cases hs : Unix.sanitize_standard_fds c e fuel with
  | ok t0 =>
    rw [hs] at h
    by_cases hsig : e.sigRetErr
    · simp [hsig] at h
    · simp only [hsig, if_false, Bool.false_eq_true, if_neg,
        RunResult.ok.injEq] at h
      unfold Unix.sanitize_standard_fds at hs
      cases hp : Unix.poll_loop c e 0 fuel with
      | none =>
        rw [hp] at hs
        exact absurd hs (by simp)
      | some p =>
        obtain ⟨b, k⟩ := p
        rw [hp] at hs
        cases b with
        | false => exact absurd hs (by simp)
        | true =>
          simp only at hs
          obtain ⟨r, hr, hmem⟩ :=
            reopen_go_ok_shape e [0, 1, 2] 0 (List.replicate k .pollCall) t0 hs
          exact ⟨k, r, by rw [← h, hr, List.append_assoc], hmem⟩
  | aborted t0 =>
    rw [hs] at h
    exact absurd h (by simp)
  | outOfFuel =>
    rw [hs] at h
    exact absurd h (by simp)

/-- Environment in which the first poll succeeds, every standard fd is
valid, and the signal call succeeds. -/
def initEnvAllValid : InitEnv where
  pollRet := fun _ => 0
  pollErrno := fun _ => 0
  pollnval := fun _ => false
  openRet := fun _ => 0
  sigRetErr := false

/-- C7 witness: the order theorem applied to the environment where all
standard fds are valid; init produces the four steps in order. -/
theorem C7_witness :
    ∃ k r,
      [Event.pollCall, Event.resetSigpipe, Event.stackOverflowInit,
        Event.argsInit] = List.replicate k Event.pollCall ++ r ++
        [Event.resetSigpipe, Event.stackOverflowInit, Event.argsInit] ∧
      ∀ ev ∈ r, ∃ fd, ev = Event.reopen fd :=
  C7_init_order linuxConsts initEnvAllValid 1 _ rfl

/-- C8: whenever init completes normally, every standard fd the poll
reported invalid was reopened; and whenever the poll loop succeeds but
some invalid fd has a failing reopen call, init aborts with a trace
containing none of the later bootstrap steps. -/
theorem C8_sanitize_reopen (c : ErrnoConsts) (e : InitEnv) (fuel : Nat) :
    (∀ t, Unix.init c e fuel = .ok t →
      ∀ fd ∈ [0, 1, 2], e.pollnval fd = true → Event.reopen fd ∈ t) ∧
    (∀ k, Unix.poll_loop c e 0 fuel = some (true, k) →
      Unix.reopen_fails e [0, 1, 2] 0 = true →
      ∃ t, Unix.init c e fuel = .aborted t ∧
        Event.resetSigpipe ∉ t ∧ Event.stackOverflowInit ∉ t ∧
        Event.argsInit ∉ t) := by
  constructor
  · intro t h fd hfd hv
    unfold Unix.init at h
    cases hs : Unix.sanitize_standard_fds c e fuel with
    | ok t0 =>
      rw [hs] at h
      by_cases hsig : e.sigRetErr
      · simp [hsig] at h
      · simp only [hsig, if_false, Bool.false_eq_true, if_neg,
          RunResult.ok.injEq] at h
        unfold Unix.sanitize_standard_fds at hs
        cases hp : Unix.poll_loop c e 0 fuel with
        | none =>
          rw [hp] at hs
          exact absurd hs (by simp)
        | some p =>
          obtain ⟨b, k⟩ := p
          rw [hp] at hs
          cases b with
          | false => exact absurd hs (by simp)
          | true =>
            simp only at hs
            have := (reopen_go_ok_mem e [0, 1, 2] 0
              (List.replicate k .pollCall) t0 hs).2 fd hfd hv
            rw [← h]
            exact List.mem_append.mpr (Or.inl this)
    | aborted t0 =>
      rw [hs] at h
      exact absurd h (by simp)
    | outOfFuel =>
      rw [hs] at h
      exact absurd h (by simp)
  · intro k hp hf
    obtain ⟨t, ht, hmem⟩ :=
      reopen_go_fails_aborted e [0, 1, 2] 0 (List.replicate k .pollCall) hf
    have hsan : Unix.sanitize_standard_fds c e fuel = .aborted t := by
      unfold Unix.sanitize_standard_fds
      rw [hp]
      exact ht
    have honly : ∀ ev ∈ t, ev = Event.pollCall ∨ ∃ fd, ev = Event.reopen fd := by
      intro ev hev
      rcases hmem ev hev with h1 | h1
      · exact Or.inl (List.eq_of_mem_replicate h1)
      · exact Or.inr h1
    refine ⟨t, ?_, ?_, ?_, ?_⟩
    · unfold Unix.init
      rw [hsan]
    · intro hin
      rcases honly _ hin with h1 | ⟨fd, h1⟩ <;> exact Event.noConfusion h1
    · intro hin
      rcases honly _ hin with h1 | ⟨fd, h1⟩ <;> exact Event.noConfusion h1
    · intro hin
      rcases honly _ hin with h1 | ⟨fd, h1⟩ <;> exact Event.noConfusion h1

/-- Environment in which the first poll succeeds, fd 1 is invalid, and
every open of the null device fails. -/
def initEnvReopenFail : InitEnv where
  pollRet := fun _ => 0
  pollErrno := fun _ => 0
  pollnval := fun fd => fd == 1
  openRet := fun _ => -1
  sigRetErr := false

/-- C8 witness: with fd 1 invalid and its reopen failing, init aborts with
no later bootstrap step in the trace. -/
theorem C8_witness :
    ∃ t, Unix.init linuxConsts initEnvReopenFail 1 = .aborted t ∧
      Event.resetSigpipe ∉ t ∧ Event.stackOverflowInit ∉ t ∧
      Event.argsInit ∉ t :=
  (C8_sanitize_reopen linuxConsts initEnvReopenFail 1).2 1 rfl rfl

end SysModel
